import Mathlib

/-!
Shallow embedding of the gerrit-monitor service worker core
(`badge.js` service-worker module plus the relevant boundary of
`browser.js`): the per-host result cache with TTL, the fan-out fetch
orchestrator `fetchCls`, the badge/status deriver and alarm re-arm in
`update`, the periodic `onAlarm` handler, and the message bridge
`newMessageProxy`.

External collaborators (`gerrit.fetchAccount`/`fetchReviews`,
`getCategoryMap`, the `messages.*` badge templates and the `config.*`
constants live in files outside the embedded sources) are passed in as
parameters, matching the spec's component boundary.

Concurrency: the worker is single-threaded and cooperative; within one
`fetchCls` call the per-host async units are modelled as settling in
input order, which fixes one deterministic interleaving of the
`Promise.allSettled` join.
-/

namespace GerritMonitor

/-- Opaque host identity (a Gerrit host string). -/
abbrev Host := String

/-- Per-host failure as produced by the external client
(`browser.FetchError` carries a `message`). -/
structure FetchError where
  message : String
deriving DecidableEq, Repr

/-- The outcome of fetching one host: either the host's reviews payload
or an error.  Matches the `{reviews: ...}` / `{error: ...}` records stored
in `fetchCache`. -/
inductive FetchOutcome (ρ : Type) where
  | reviews (r : ρ)
  | error (e : FetchError)
deriving DecidableEq, Repr

/-- The module-level `fetchCache`: maps a host to
`[timestamp, {reviews} | {error}]` when present. -/
abbrev Cache (ρ : Type) := Host → Option (Int × FetchOutcome ρ)

/-- Assignment `fetchCache[host] = [ts, outcome]`: overwrites one key, leaves the rest. -/
def cacheSet (c : Cache ρ) (h : Host) (v : Int × FetchOutcome ρ) : Cache ρ :=
  fun h' => if h' = h then some v else c h'

/-- The error thrown by `fetchCls` on an empty host list
(`config.NO_HOST_ALLOWED`). -/
inductive ConfigError where
  | noHostAllowed
deriving DecidableEq, Repr

/-- The combined outcome returned by `fetchCls`:
`{ results: SearchResults(results), errors: errors }`. -/
structure CombinedOutcome (ρ : Type) where
  results : List ρ
  errors : List (Host × FetchError)
deriving DecidableEq, Repr

/-- Mutable state threaded through one `fetchCls` pass: the `results` and
`errors` arrays, the cache, and a log of the hosts for which the external
client was actually invoked (one entry per network fetch attempt). -/
structure OrchState (ρ : Type) where
  results : List ρ
  errors : List (Host × FetchError)
  cache : Cache ρ
  log : List Host

/-- The fetch path of one per-host async unit: invoke the external client
(`gerrit.fetchAccount` then `gerrit.fetchReviews`, combined here into one
oracle `f`), write the outcome into the cache with the current timestamp,
and push into `results` or `errors`. -/
def hostFetch (f : Host → FetchOutcome ρ) (now : Int) (st : OrchState ρ)
    (host : Host) : OrchState ρ :=
  match f host with
  | .reviews r =>
      { results := st.results ++ [r]
        errors := st.errors
        cache := cacheSet st.cache host (now, .reviews r)
        log := st.log ++ [host] }
  | .error e =>
      { results := st.results
        errors := st.errors ++ [(host, e)]
        cache := cacheSet st.cache host (now, .error e)
        log := st.log ++ [host] }

/-- One per-host async unit of `fetchCls`: reuse a fresh cache entry
verbatim (`now - timestamp < REVIEW_CACHE_DURATION`), else fetch. -/
def hostStep (f : Host → FetchOutcome ρ) (ttl now : Int) (st : OrchState ρ)
    (host : Host) : OrchState ρ :=
  match st.cache host with
  | some (timestamp, cached) =>
      if now - timestamp < ttl then
        match cached with
        | .error e => { st with errors := st.errors ++ [(host, e)] }
        | .reviews r => { st with results := st.results ++ [r] }
      else hostFetch f now st host
  | none => hostFetch f now st host

/-- The `Promise.allSettled(hosts.map(...))` join, with units settling in
input order. -/
def runHosts (f : Host → FetchOutcome ρ) (ttl now : Int) :
    OrchState ρ → List Host → OrchState ρ
  | st, [] => st
  | st, host :: rest => runHosts f ttl now (hostStep f ttl now st host) rest

/-- What one `fetchCls` call produces: the returned (or thrown) value,
the cache afterwards, and the log of network fetch attempts. -/
structure FetchClsResult (ρ : Type) where
  result : Except ConfigError (CombinedOutcome ρ)
  cache : Cache ρ
  log : List Host

/-- Function `fetchCls(hosts)` from badge.js: throw `NO_HOST_ALLOWED` on an empty
host list, otherwise run every per-host unit to settlement and return the
combined results and errors. -/
def fetchCls (f : Host → FetchOutcome ρ) (ttl now : Int) (cache0 : Cache ρ)
    (hosts : List Host) : FetchClsResult ρ :=
  if hosts.length = 0 then
    { result := .error .noHostAllowed, cache := cache0, log := [] }
  else
    let st := runHosts f ttl now
      { results := [], errors := [], cache := cache0, log := [] } hosts
    { result := .ok { results := st.results, errors := st.errors }
      cache := st.cache
      log := st.log }

/-- A badge icon path set, keyed `'24'`/`'48'` in the source records. -/
structure IconSet where
  px24 : String
  px48 : String
deriving DecidableEq, Repr

/-- The `updateData` record handed to `browser.updateBadge`: text, color,
title and icon of the badge (the spec's `StatusDescriptor`). -/
structure BadgeData where
  text : String
  color : String
  title : String
  icon : IconSet
deriving DecidableEq, Repr

/-- The fixed error-variant icon used by the error branch of `update`. -/
def errorIcon : IconSet :=
  { px24 := "img/ic_assignment_late_black_24dp_1x.png"
    px48 := "img/ic_assignment_late_black_24dp_2x.png" }

/-- The error descriptor built by `update` from the first entry of
`wrapper.errors`. -/
def errorBadge (e : FetchError) : BadgeData :=
  { text := "!", color := "red", title := "Error: " ++ e.message
    icon := errorIcon }

/-- One entry of `messages.BADGE_DATA`: icon, color and the
title-formatting rule of an attention category. -/
structure BadgeTemplate where
  icon : IconSet
  color : String
  formatTitle : Nat → String

/-- The `CategoryMap` computed by `gerrit.SearchResults.getCategoryMap`:
category label to list of items. -/
abbrev CategoryMap (ι : Type) := List (String × List ι)

/-- Lookup `categories.has(l)` / `categories.get(l)` as one operation. -/
def lookupCategory (m : CategoryMap ι) (l : String) : Option (List ι) :=
  (m.find? (fun kv => kv.1 = l)).map (fun kv => kv.2)

/-- The `SECTION_ORDERING.forEach` walk of `update`: starting from
`updateData = null`, each label is skipped while `updateData` is already
set, while the label is absent from the category map, or while its
`BADGE_DATA` entry is `null`; the first remaining label sets
`updateData` from its item count and template. -/
def badgeWalk (badgeData : String → Option BadgeTemplate) (categories : CategoryMap ι) :
    Option BadgeData → List String → Option BadgeData
  | acc, [] => acc
  | acc, attention :: rest =>
      badgeWalk badgeData categories
        (match acc with
         | some d => some d
         | none =>
             match lookupCategory categories attention with
             | none => none
             | some items =>
                 match badgeData attention with
                 | none => none
                 | some data =>
                     some { text := toString items.length
                            icon := data.icon
                            title := data.formatTitle items.length
                            color := data.color }) rest

/-- The badge-derivation part of `update`: error precedence over the first
entry of `wrapper.errors`, otherwise the ordered category walk with the
`DEFAULT_BADGE_DATA` catch-all. -/
def deriveBadge (ordering : List String) (badgeData : String → Option BadgeTemplate)
    (defaultBadge : BadgeData) (getCategoryMap : List ρ → CategoryMap ι)
    (wrapper : CombinedOutcome ρ) : BadgeData :=
  match wrapper.errors with
  | (_, e) :: _ => errorBadge e
  | [] =>
      let categories := getCategoryMap wrapper.results
      (badgeWalk badgeData categories none ordering).getD defaultBadge

/-- Observable side effects of one pass, in program order: a network fetch
for a host, `chrome.alarms.clear('auto-refresh')`,
`chrome.alarms.create('auto-refresh', {delayInMinutes})`,
`browser.updateBadge`, and `notifications.notify`. -/
inductive Event where
  | fetch (host : Host)
  | alarmClear
  | alarmCreate (delay : Int)
  | badgeUpdate
  | notifySent
deriving DecidableEq, Repr

/-- The collaborators and configuration constants consumed by the worker:
the per-host client oracle, `REVIEW_CACHE_DURATION_IN_MILLISECONDS`,
`REFRESH_DELAY_IN_MINUTES`, `messages.SECTION_ORDERING`,
`messages.BADGE_DATA`, `messages.DEFAULT_BADGE_DATA` and
`gerrit.SearchResults.getCategoryMap`. -/
structure Env (ρ ι : Type) where
  fetchFn : Host → FetchOutcome ρ
  ttl : Int
  refreshDelay : Int
  ordering : List String
  badgeData : String → Option BadgeTemplate
  defaultBadge : BadgeData
  getCategoryMap : List ρ → CategoryMap ι

/-- Service-worker state the embedded passes act on: the `fetchCache`,
the `'auto-refresh'` alarm slot (`some delay` iff armed), and the last
badge handed to the rendering sink. -/
structure WorkerState (ρ : Type) where
  cache : Cache ρ
  alarm : Option Int
  badge : Option BadgeData

/-- Result of one `fetchAndUpdate` pass: the value it resolves to (or the
error it rejects with), the worker state afterwards, and the event trace. -/
structure PassResult (ρ : Type) where
  outcome : Except ConfigError (CombinedOutcome ρ)
  state : WorkerState ρ
  trace : List Event

/-- Function `update(wrapper)` from badge.js: clear then re-create the
`'auto-refresh'` alarm, derive the badge, hand it to
`browser.updateBadge`.  Returns the new alarm slot, the badge, and the
events in order. -/
def update (env : Env ρ ι) (wrapper : CombinedOutcome ρ) :
    Option Int × BadgeData × List Event :=
  (some env.refreshDelay,
   deriveBadge env.ordering env.badgeData env.defaultBadge env.getCategoryMap wrapper,
   [.alarmClear, .alarmCreate env.refreshDelay, .badgeUpdate])

/-- Function `fetchAndUpdate(hosts)`: run `fetchCls`, then `update`, then
`notifications.notify`.  A rejection of `fetchCls` propagates before
`update` runs, so no alarm event and no badge event happen in that case. -/
def fetchAndUpdate (env : Env ρ ι) (now : Int) (hosts : List Host)
    (st : WorkerState ρ) : PassResult ρ :=
  let fr := fetchCls env.fetchFn env.ttl now st.cache hosts
  match fr.result with
  | .error e =>
      { outcome := .error e
        state := { st with cache := fr.cache }
        trace := fr.log.map .fetch }
  | .ok comb =>
      let (alarm', badge', updateEvents) := update env comb
      { outcome := .ok comb
        state := { cache := fr.cache, alarm := alarm', badge := some badge' }
        trace := fr.log.map .fetch ++ updateEvents ++ [.notifySent] }

/-- Function `onAlarm()`: load the configured hosts (passed in, since options and
`gerrit.fetchAllowedInstances` are external), run `fetchAndUpdate` only if
the host list is non-empty, and catch-and-log any error (the third
component records a logged error; nothing is rethrown). -/
def onAlarm (env : Env ρ ι) (now : Int) (hosts : List Host)
    (st : WorkerState ρ) : WorkerState ρ × List Event × Option ConfigError :=
  if hosts.length > 0 then
    let p := fetchAndUpdate env now hosts st
    match p.outcome with
    | .error e => (p.state, p.trace, some e)
    | .ok _ => (p.state, p.trace, none)
  else (st, [], none)

/-- The `chrome.alarms.onAlarm` listener: run `onAlarm` only for the
alarm named `'auto-refresh'`. -/
def handleAlarmEvent (env : Env ρ ι) (now : Int) (hosts : List Host)
    (name : String) (st : WorkerState ρ) :
    WorkerState ρ × List Event × Option ConfigError :=
  if name = "auto-refresh" then onAlarm env now hosts st else (st, [], none)

/-- A JavaScript value as it may cross the message bridge: JSON data
(`nul`, booleans, numbers, strings, arrays, objects) plus the non-data
values `undef` and `func` that `JSON.stringify` cannot represent. -/
inductive JsVal where
  | nul
  | undef
  | boolean (b : Bool)
  | num (n : Int)
  | str (s : String)
  | arr (xs : List JsVal)
  | obj (fields : List (String × JsVal))
  | func

mutual

/-- Round trip `JSON.parse(JSON.stringify(v))`: `none` when `JSON.stringify` yields
`undefined` (so the subsequent `JSON.parse` throws). -/
def jsonRound : JsVal → Option JsVal
  | .nul => some .nul
  | .undef => none
  | .func => none
  | .boolean b => some (.boolean b)
  | .num n => some (.num n)
  | .str s => some (.str s)
  | .arr xs => some (.arr (jsonRoundArr xs))
  | .obj fs => some (.obj (jsonRoundFields fs))

/-- Array elements that do not stringify become `null`. -/
def jsonRoundArr : List JsVal → List JsVal
  | [] => []
  | x :: xs => (jsonRound x).getD .nul :: jsonRoundArr xs

/-- Object fields whose value does not stringify are dropped. -/
def jsonRoundFields : List (String × JsVal) → List (String × JsVal)
  | [] => []
  | (k, v) :: fs =>
      match jsonRound v with
      | some c => (k, c) :: jsonRoundFields fs
      | none => jsonRoundFields fs

end

mutual

/-- Plain JSON data: nested records, ordered lists, strings, numbers,
booleans and null — no `undefined`, no functions anywhere inside. -/
def plainData : JsVal → Bool
  | .nul => true
  | .undef => false
  | .func => false
  | .boolean _ => true
  | .num _ => true
  | .str _ => true
  | .arr xs => plainDataArr xs
  | .obj fs => plainDataFields fs

/-- All elements of the list are plain data. -/
def plainDataArr : List JsVal → Bool
  | [] => true
  | x :: xs => plainData x && plainDataArr xs

/-- All field values are plain data. -/
def plainDataFields : List (String × JsVal) → Bool
  | [] => true
  | (_, v) :: fs => plainData v && plainDataFields fs

end

/-- A promise rejection value; `String(error)` on an `Error` carrying
this message renders as `"Error: " ++ message`. -/
structure Rejection where
  message : String
deriving DecidableEq, Repr

/-- Rendering `String(error)` applied to a rejection. -/
def renderRejection (e : Rejection) : String := "Error: " ++ e.message

/-- One asynchronous operation on the handler surface: positional
arguments in, an eventually resolved value or a rejection out. -/
abbrev Operation := List JsVal → Except Rejection JsVal

/-- The handler surface: `handler[name]` is the operation when such a
method exists, `undefined` otherwise. -/
abbrev Handler := String → Option Operation

/-- The response object passed to `reply`. -/
inductive Reply where
  | value (v : JsVal)
  | error (msg : String)

/-- What one incoming message does to the listener made by
`newMessageProxy`: a reply is delivered, or the listener throws a raw
`TypeError` synchronously (unknown command: `handler[request[0]]` is
`undefined` and `.apply` on it throws, uncaught), or the success callback
throws while re-parsing an unserializable value and no reply is ever
delivered. -/
inductive BridgeOutcome where
  | replied (r : Reply)
  | rawTypeErrorThrown
  | parseThrown

/-- The listener built by `newMessageProxy(handler)`, applied to a request
`[command, ...args]`: look the command up on the handler, invoke it with
the remaining arguments, reply `{value: JSON.parse(JSON.stringify(v))}`
on resolution and `{error: String(error)}` on rejection. -/
def messageProxy (handler : Handler) (command : String) (args : List JsVal) :
    BridgeOutcome :=
  match handler command with
  | none => .rawTypeErrorThrown
  | some op =>
      match op args with
      | .ok v =>
          match jsonRound v with
          | some canonical => .replied (.value canonical)
          | none => .parseThrown
      | .error e => .replied (.error (renderRejection e))

/-! Helper lemmas about the per-host step and the settle-all run. -/

theorem hostFetch_cache_ne (f : Host → FetchOutcome ρ) (now : Int) (st : OrchState ρ)
    (host h : Host) (hne : h ≠ host) :
    (hostFetch f now st host).cache h = st.cache h := by
  unfold hostFetch
  cases f host <;> simp [cacheSet, hne]

theorem hostStep_cache_ne (f : Host → FetchOutcome ρ) (ttl now : Int) (st : OrchState ρ)
    (host h : Host) (hne : h ≠ host) :
    (hostStep f ttl now st host).cache h = st.cache h := by
  unfold hostStep
  split
  · split
    · split <;> rfl
    · exact hostFetch_cache_ne f now st host h hne
  · exact hostFetch_cache_ne f now st host h hne

theorem hostStep_log_or (f : Host → FetchOutcome ρ) (ttl now : Int) (st : OrchState ρ)
    (host : Host) :
    (hostStep f ttl now st host).log = st.log ∨
    (hostStep f ttl now st host).log = st.log ++ [host] := by
  unfold hostStep hostFetch
  split
  · split
    · split <;> exact Or.inl rfl
    · split <;> exact Or.inr rfl
  · split <;> exact Or.inr rfl

theorem hostStep_errors_append (f : Host → FetchOutcome ρ) (ttl now : Int)
    (st : OrchState ρ) (host : Host) :
    ∃ t, (hostStep f ttl now st host).errors = st.errors ++ t := by
  unfold hostStep hostFetch
  split
  · split
    · split
      · exact ⟨_, rfl⟩
      · exact ⟨[], by simp⟩
    · split
      · exact ⟨[], by simp⟩
      · exact ⟨_, rfl⟩
  · split
    · exact ⟨[], by simp⟩
    · exact ⟨_, rfl⟩

theorem hostStep_results_append (f : Host → FetchOutcome ρ) (ttl now : Int)
    (st : OrchState ρ) (host : Host) :
    ∃ t, (hostStep f ttl now st host).results = st.results ++ t := by
  unfold hostStep hostFetch
  split
  · split
    · split
      · exact ⟨[], by simp⟩
      · exact ⟨_, rfl⟩
    · split
      · exact ⟨_, rfl⟩
      · exact ⟨[], by simp⟩
  · split
    · exact ⟨_, rfl⟩
    · exact ⟨[], by simp⟩

theorem runHosts_errors_mem (f : Host → FetchOutcome ρ) (ttl now : Int)
    (p : Host × FetchError) :
    ∀ (l : List Host) (st : OrchState ρ),
      p ∈ st.errors → p ∈ (runHosts f ttl now st l).errors
  | [], _, hp => hp
  | host :: rest, st, hp => by
      have ⟨t, ht⟩ := hostStep_errors_append f ttl now st host
      exact runHosts_errors_mem f ttl now p rest _
        (by rw [ht]; exact List.mem_append_left t hp)

theorem runHosts_results_mem (f : Host → FetchOutcome ρ) (ttl now : Int) (r : ρ) :
    ∀ (l : List Host) (st : OrchState ρ),
      r ∈ st.results → r ∈ (runHosts f ttl now st l).results
  | [], _, hr => hr
  | host :: rest, st, hr => by
      have ⟨t, ht⟩ := hostStep_results_append f ttl now st host
      exact runHosts_results_mem f ttl now r rest _
        (by rw [ht]; exact List.mem_append_left t hr)

/-! Claim theorems: the orchestrator. -/

/-- C6: for the empty host set, `fetchCls` throws the configured
`NO_HOST_ALLOWED` error immediately and performs zero network fetches. -/
theorem empty_hosts_config_error (f : Host → FetchOutcome ρ) (ttl now : Int)
    (cache0 : Cache ρ) :
    (fetchCls f ttl now cache0 []).result = .error .noHostAllowed ∧
    (fetchCls f ttl now cache0 []).log = [] :=
  ⟨rfl, rfl⟩

/-- C1: with hosts `[A, B]` both uncached, `A` failing and `B` succeeding,
`fetchCls` still settles every unit: it returns (does not throw), with
`errors = [(A, e)]` and `results = [B's reviews]`, fetches both hosts, and
caches both outcomes independently. -/
theorem host_failure_isolated (f : Host → FetchOutcome ρ) (ttl now : Int)
    (cache0 : Cache ρ) (A B : Host) (e : FetchError) (r : ρ)
    (hAB : A ≠ B) (hcA : cache0 A = none) (hcB : cache0 B = none)
    (hfA : f A = .error e) (hfB : f B = .reviews r) :
    (fetchCls f ttl now cache0 [A, B]).result = .ok { results := [r], errors := [(A, e)] } ∧
    (fetchCls f ttl now cache0 [A, B]).log = [A, B] ∧
    (fetchCls f ttl now cache0 [A, B]).cache A = some (now, .error e) ∧
    (fetchCls f ttl now cache0 [A, B]).cache B = some (now, .reviews r) := by
  have hBA : B ≠ A := fun hb => hAB hb.symm
  refine ⟨?_, ?_, ?_, ?_⟩ <;>
    simp [fetchCls, runHosts, hostStep, hostFetch, cacheSet, hcA, hcB, hfA, hfB, hAB, hBA]

/-- Witness for C1 at a concrete input. -/
theorem host_failure_isolated_witness :
    (fetchCls (fun host => if host = "A" then .error ⟨"boom"⟩ else .reviews (7 : Nat))
        1000 50 (fun _ => none) ["A", "B"]).result =
      .ok { results := [7], errors := [("A", ⟨"boom"⟩)] } :=
  (host_failure_isolated (fun host => if host = "A" then .error ⟨"boom"⟩ else .reviews (7 : Nat))
    1000 50 (fun _ => none) "A" "B" ⟨"boom"⟩ 7 (by simp) rfl rfl (by simp) (by simp)).1

theorem hostStep_fresh_reuse (f : Host → FetchOutcome ρ) (ttl now : Int)
    (st : OrchState ρ) (h : Host) (ts : Int) (o : FetchOutcome ρ)
    (hc : st.cache h = some (ts, o)) (hfresh : now - ts < ttl) :
    (hostStep f ttl now st h).cache = st.cache ∧
    (hostStep f ttl now st h).log = st.log ∧
    (∀ e, o = .error e → (hostStep f ttl now st h).errors = st.errors ++ [(h, e)]) ∧
    (∀ r, o = .reviews r → (hostStep f ttl now st h).results = st.results ++ [r]) := by
  unfold hostStep
  simp only [hc, if_pos hfresh]
  cases o with
  | reviews r =>
      refine ⟨rfl, rfl, ?_, ?_⟩
      · intro e he; cases he
      · intro r' hr; cases hr; rfl
  | error e =>
      refine ⟨rfl, rfl, ?_, ?_⟩
      · intro e' he; cases he; rfl
      · intro r hr; cases hr

theorem runHosts_fresh_invariant (f : Host → FetchOutcome ρ) (ttl now : Int)
    (h : Host) (ts : Int) (o : FetchOutcome ρ) (hfresh : now - ts < ttl) :
    ∀ (l : List Host) (st : OrchState ρ), st.cache h = some (ts, o) →
      (runHosts f ttl now st l).cache h = some (ts, o) ∧
      (runHosts f ttl now st l).log.count h = st.log.count h ∧
      (h ∈ l →
        (∀ e, o = .error e → (h, e) ∈ (runHosts f ttl now st l).errors) ∧
        (∀ r, o = .reviews r → r ∈ (runHosts f ttl now st l).results))
  | [], st, hc => ⟨hc, rfl, fun hm => absurd hm (List.not_mem_nil h)⟩
  | host :: rest, st, hc => by
      simp only [runHosts]
      by_cases heq : host = h
      · subst heq
        have hr := hostStep_fresh_reuse f ttl now st host ts o hc hfresh
        have hc' : (hostStep f ttl now st host).cache host = some (ts, o) := by
          rw [hr.1]; exact hc
        have ih := runHosts_fresh_invariant f ttl now host ts o hfresh rest
          (hostStep f ttl now st host) hc'
        refine ⟨ih.1, ?_, fun _ => ⟨?_, ?_⟩⟩
        · rw [ih.2.1, hr.2.1]
        · intro e he
          apply runHosts_errors_mem
          rw [hr.2.2.1 e he]
          exact List.mem_append_right _ (List.mem_singleton.mpr rfl)
        · intro r hrv
          apply runHosts_results_mem
          rw [hr.2.2.2 r hrv]
          exact List.mem_append_right _ (List.mem_singleton.mpr rfl)
      · have hne : h ≠ host := fun he => heq he.symm
        have hc' : (hostStep f ttl now st host).cache h = some (ts, o) := by
          rw [hostStep_cache_ne f ttl now st host h hne]; exact hc
        have ih := runHosts_fresh_invariant f ttl now h ts o hfresh rest
          (hostStep f ttl now st host) hc'
        refine ⟨ih.1, ?_, fun hm => ih.2.2 ?_⟩
        · rw [ih.2.1]
          rcases hostStep_log_or f ttl now st host with hl | hl <;> rw [hl]
          simp [List.count_append, hne]
        · rcases List.mem_cons.mp hm with he | hm'
          · exact absurd he.symm heq
          · exact hm'

/-- C2: for any host of the call whose cache entry is fresh
(`now - recordedAt < TTL`), `fetchCls` performs zero network fetches for
that host, leaves its entry untouched, and reuses the entry verbatim: a
cached failure contributes to `errors`, a cached success to `results`. -/
theorem fresh_cache_entry_reused (f : Host → FetchOutcome ρ) (ttl now : Int)
    (cache0 : Cache ρ) (hosts : List Host) (h : Host) (ts : Int) (o : FetchOutcome ρ)
    (hmem : h ∈ hosts) (hc : cache0 h = some (ts, o)) (hfresh : now - ts < ttl) :
    h ∉ (fetchCls f ttl now cache0 hosts).log ∧
    (fetchCls f ttl now cache0 hosts).cache h = some (ts, o) ∧
    ∃ comb, (fetchCls f ttl now cache0 hosts).result = .ok comb ∧
      (∀ e, o = .error e → (h, e) ∈ comb.errors) ∧
      (∀ r, o = .reviews r → r ∈ comb.results) := by
  have hlen : ¬ hosts.length = 0 := by
    cases hosts with
    | nil => exact absurd hmem (List.not_mem_nil h)
    | cons a l => simp
  have inv := runHosts_fresh_invariant f ttl now h ts o hfresh hosts
    { results := [], errors := [], cache := cache0, log := [] } hc
  unfold fetchCls
  rw [if_neg hlen]
  refine ⟨?_, inv.1, ⟨_, rfl, (inv.2.2 hmem).1, (inv.2.2 hmem).2⟩⟩
  have hcount : (runHosts f ttl now
      { results := [], errors := [], cache := cache0, log := [] } hosts).log.count h = 0 := by
    rw [inv.2.1]; rfl
  exact List.count_eq_zero.mp hcount

/-- Witness for C2 at a concrete input: host B holds a fresh cached
success, host A is fetched; B sees no network fetch and its payload is
reused. -/
theorem fresh_cache_entry_reused_witness :
    "B" ∉ (fetchCls (fun _ => FetchOutcome.reviews (9 : Nat)) 1000 50
        (fun host => if host = "B" then some (20, .reviews 3) else none) ["A", "B"]).log ∧
    (fetchCls (fun _ => FetchOutcome.reviews (9 : Nat)) 1000 50
        (fun host => if host = "B" then some (20, .reviews 3) else none) ["A", "B"]).cache "B" =
      some (20, .reviews 3) := by
  have hw := fresh_cache_entry_reused (fun _ => FetchOutcome.reviews (9 : Nat)) 1000 50
    (fun host => if host = "B" then some (20, .reviews 3) else none) ["A", "B"] "B" 20
    (.reviews 3) (by simp) (by simp) (by decide)
  exact ⟨hw.1, hw.2.1⟩

theorem runHosts_append (f : Host → FetchOutcome ρ) (ttl now : Int) :
    ∀ (l1 l2 : List Host) (st : OrchState ρ),
      runHosts f ttl now st (l1 ++ l2) =
        runHosts f ttl now (runHosts f ttl now st l1) l2
  | [], _, _ => rfl
  | _ :: l1, l2, st => runHosts_append f ttl now l1 l2 (hostStep f ttl now st _)

theorem runHosts_cache_not_mem (f : Host → FetchOutcome ρ) (ttl now : Int) (h : Host) :
    ∀ (l : List Host) (st : OrchState ρ), h ∉ l →
      (runHosts f ttl now st l).cache h = st.cache h
  | [], _, _ => rfl
  | a :: l, st, hn => by
      have h1 : h ≠ a := fun he => hn (he ▸ List.mem_cons_self a l)
      simp only [runHosts]
      rw [runHosts_cache_not_mem f ttl now h l _ (fun hm => hn (List.mem_cons_of_mem a hm)),
        hostStep_cache_ne f ttl now st a h h1]

theorem runHosts_log_count_not_mem (f : Host → FetchOutcome ρ) (ttl now : Int) (h : Host) :
    ∀ (l : List Host) (st : OrchState ρ), h ∉ l →
      (runHosts f ttl now st l).log.count h = st.log.count h
  | [], _, _ => rfl
  | a :: l, st, hn => by
      have h1 : h ≠ a := fun he => hn (he ▸ List.mem_cons_self a l)
      simp only [runHosts]
      rw [runHosts_log_count_not_mem f ttl now h l _ (fun hm => hn (List.mem_cons_of_mem a hm))]
      rcases hostStep_log_or f ttl now st a with hl | hl <;> rw [hl]
      simp [List.count_append, h1]

theorem hostFetch_self (f : Host → FetchOutcome ρ) (now : Int) (st : OrchState ρ)
    (host : Host) :
    (hostFetch f now st host).cache host = some (now, f host) ∧
    (hostFetch f now st host).log = st.log ++ [host] := by
  unfold hostFetch
  cases hf : f host <;> simp [cacheSet, hf]

theorem hostStep_stale (f : Host → FetchOutcome ρ) (ttl now : Int) (st : OrchState ρ)
    (host : Host)
    (hstale : ∀ ts o, st.cache host = some (ts, o) → ¬ now - ts < ttl) :
    hostStep f ttl now st host = hostFetch f now st host := by
  unfold hostStep
  cases hc : st.cache host with
  | none => rfl
  | some p =>
      obtain ⟨ts, o⟩ := p
      simp only [if_neg (hstale ts o hc)]

/-- C3: for a host of the call with no cache entry, or with an entry at
least TTL old, `fetchCls` performs exactly one network fetch for that host
and overwrites the host's cache entry with the newly obtained outcome
(success or failure alike) and the current timestamp. -/
theorem stale_entry_refetched (f : Host → FetchOutcome ρ) (ttl now : Int)
    (cache0 : Cache ρ) (hosts : List Host) (h : Host)
    (hmem : h ∈ hosts) (hnd : hosts.Nodup)
    (hstale : ∀ ts o, cache0 h = some (ts, o) → ¬ now - ts < ttl) :
    (fetchCls f ttl now cache0 hosts).log.count h = 1 ∧
    (fetchCls f ttl now cache0 hosts).cache h = some (now, f h) := by
  obtain ⟨l1, l2, rfl⟩ := List.append_of_mem hmem
  rw [List.nodup_append] at hnd
  have hn1 : h ∉ l1 := fun hm => hnd.2.2 hm (List.mem_cons_self h l2)
  have hn2 : h ∉ l2 := (List.nodup_cons.mp hnd.2.1).1
  have hlen : ¬ (l1 ++ h :: l2).length = 0 := by simp
  unfold fetchCls
  rw [if_neg hlen]
  dsimp only
  rw [runHosts_append f ttl now l1 (h :: l2)]
  set st1 := runHosts f ttl now
    { results := [], errors := [], cache := cache0, log := [] } l1 with hst1
  have hst1c : st1.cache h = cache0 h :=
    runHosts_cache_not_mem f ttl now h l1 _ hn1
  have hst1l : st1.log.count h = 0 :=
    runHosts_log_count_not_mem f ttl now h l1 _ hn1
  have hstep : hostStep f ttl now st1 h = hostFetch f now st1 h :=
    hostStep_stale f ttl now st1 h (fun ts o hc => hstale ts o (hst1c ▸ hc))
  have hrun : runHosts f ttl now st1 (h :: l2) =
      runHosts f ttl now (hostFetch f now st1 h) l2 := by
    simp only [runHosts, hstep]
  rw [hrun]
  have hself := hostFetch_self f now st1 h
  constructor
  · rw [runHosts_log_count_not_mem f ttl now h l2 _ hn2, hself.2]
    simp [List.count_append, hst1l]
  · rw [runHosts_cache_not_mem f ttl now h l2 _ hn2, hself.1]

/-- Witness for C3 at a concrete input: host A holds an entry exactly TTL
old, so it is refetched and its entry is overwritten with the fresh
failure outcome at the current timestamp. -/
theorem stale_entry_refetched_witness :
    (fetchCls (fun _ => FetchOutcome.error ⟨"down"⟩) 100 150
        (fun host => if host = "A" then some ((50 : Int), .reviews (3 : Nat)) else none)
        ["A", "B"]).log.count "A" = 1 ∧
    (fetchCls (fun _ => FetchOutcome.error ⟨"down"⟩) 100 150
        (fun host => if host = "A" then some ((50 : Int), .reviews (3 : Nat)) else none)
        ["A", "B"]).cache "A" = some (150, .error ⟨"down"⟩) :=
  stale_entry_refetched (fun _ => FetchOutcome.error ⟨"down"⟩) 100 150
    (fun host => if host = "A" then some ((50 : Int), .reviews (3 : Nat)) else none)
    ["A", "B"] "A" (by simp) (by simp) (by intro ts o hc; simp at hc; omega)

/-! Claim theorems: the status deriver. -/

/-- C4: whenever `errors` is non-empty — also with non-empty `results` —
`update` derives the error descriptor from the first error entry: the
fixed `'!'` marker, the fixed `'red'` color and error icon, and a title
embedding that entry's error message; `results` is ignored entirely. -/
theorem error_descriptor_precedence (ordering : List String)
    (badgeData : String → Option BadgeTemplate) (dflt : BadgeData)
    (gcm : List ρ → CategoryMap ι) (w : CombinedOutcome ρ)
    (h0 : Host) (e : FetchError) (rest : List (Host × FetchError))
    (hw : w.errors = (h0, e) :: rest) :
    deriveBadge ordering badgeData dflt gcm w =
      { text := "!", color := "red", title := "Error: " ++ e.message, icon := errorIcon } ∧
    ∀ rs : List ρ,
      deriveBadge ordering badgeData dflt gcm { results := rs, errors := w.errors } =
        deriveBadge ordering badgeData dflt gcm w := by
  constructor
  · simp only [deriveBadge, hw, errorBadge]
  · intro rs
    simp only [deriveBadge, hw]

/-- Witness for C4 at a concrete input with both collections non-empty. -/
theorem error_descriptor_precedence_witness :
    deriveBadge [] (fun _ => none)
      { text := "", color := "", title := "", icon := ⟨"", ""⟩ }
      (fun _ => ([] : CategoryMap Nat))
      { results := [5, 6], errors := [("A", ⟨"oops"⟩), ("B", ⟨"later"⟩)] } =
      { text := "!", color := "red", title := "Error: " ++ "oops", icon := errorIcon } :=
  (error_descriptor_precedence [] (fun _ => none)
    { text := "", color := "", title := "", icon := ⟨"", ""⟩ }
    (fun _ => ([] : CategoryMap Nat))
    { results := ([5, 6] : List Nat), errors := [("A", ⟨"oops"⟩), ("B", ⟨"later"⟩)] }
    "A" ⟨"oops"⟩ [("B", ⟨"later"⟩)] rfl).1

theorem badgeWalk_some (badgeData : String → Option BadgeTemplate)
    (cats : CategoryMap ι) (d : BadgeData) :
    ∀ l : List String, badgeWalk badgeData cats (some d) l = some d
  | [] => rfl
  | _ :: l => badgeWalk_some badgeData cats d l

theorem badgeWalk_skip (badgeData : String → Option BadgeTemplate)
    (cats : CategoryMap ι) (a : String) (l : List String)
    (hs : lookupCategory cats a = none ∨ badgeData a = none) :
    badgeWalk badgeData cats none (a :: l) = badgeWalk badgeData cats none l := by
  rcases hs with hs | hs
  · simp only [badgeWalk, hs]
  · cases hl : lookupCategory cats a with
    | none => simp only [badgeWalk, hl]
    | some items => simp only [badgeWalk, hl, hs]

theorem badgeWalk_hit (badgeData : String → Option BadgeTemplate)
    (cats : CategoryMap ι) (a : String) (l : List String)
    (items : List ι) (tmpl : BadgeTemplate)
    (hl : lookupCategory cats a = some items) (hb : badgeData a = some tmpl) :
    badgeWalk badgeData cats none (a :: l) =
      some { text := toString items.length, icon := tmpl.icon,
             title := tmpl.formatTitle items.length, color := tmpl.color } := by
  simp only [badgeWalk, hl, hb]
  exact badgeWalk_some badgeData cats _ l

theorem badgeWalk_skip_all (badgeData : String → Option BadgeTemplate)
    (cats : CategoryMap ι) :
    ∀ l : List String,
      (∀ a ∈ l, lookupCategory cats a = none ∨ badgeData a = none) →
      badgeWalk badgeData cats none l = none
  | [], _ => rfl
  | a :: l, hall => by
      rw [badgeWalk_skip badgeData cats a l (hall a (List.mem_cons_self a l))]
      exact badgeWalk_skip_all badgeData cats l
        (fun a' hm => hall a' (List.mem_cons_of_mem a hm))

theorem badgeWalk_skip_many (badgeData : String → Option BadgeTemplate)
    (cats : CategoryMap ι)
    (hinv : ∀ l xs, lookupCategory cats l = some xs → xs ≠ []) :
    ∀ (l1 rest : List String),
      (∀ a ∈ l1, lookupCategory cats a = none ∨
        lookupCategory cats a = some [] ∨ badgeData a = none) →
      badgeWalk badgeData cats none (l1 ++ rest) = badgeWalk badgeData cats none rest
  | [], _, _ => rfl
  | a :: l1, rest, hskip => by
      have ha : lookupCategory cats a = none ∨ badgeData a = none := by
        rcases hskip a (List.mem_cons_self a l1) with h | h | h
        · exact Or.inl h
        · exact absurd rfl (hinv a [] h)
        · exact Or.inr h
      rw [List.cons_append, badgeWalk_skip badgeData cats a _ ha]
      exact badgeWalk_skip_many badgeData cats hinv l1 rest
        (fun a' hm => hskip a' (List.mem_cons_of_mem a hm))

/-- C5: with `errors` empty, `update` walks the fixed ordered label list
and, for the first label present in the category map (whose entries are
all non-empty, as `getCategoryMap` guarantees) with a configured non-null
`BADGE_DATA` template, produces the descriptor with the item count as
text, the category's formatted title, and the template's color and icon;
when no label matches it produces exactly the single default descriptor.
Exactly one descriptor results in every case. -/
theorem category_priority_walk (ordering : List String)
    (badgeData : String → Option BadgeTemplate) (dflt : BadgeData)
    (gcm : List ρ → CategoryMap ι) (w : CombinedOutcome ρ)
    (hw : w.errors = [])
    (hinv : ∀ l xs, lookupCategory (gcm w.results) l = some xs → xs ≠ []) :
    (∀ (l1 : List String) (l : String) (l2 : List String)
        (items : List ι) (tmpl : BadgeTemplate),
      ordering = l1 ++ l :: l2 →
      (∀ a ∈ l1, lookupCategory (gcm w.results) a = none ∨
        lookupCategory (gcm w.results) a = some [] ∨ badgeData a = none) →
      lookupCategory (gcm w.results) l = some items → items ≠ [] →
      badgeData l = some tmpl →
      deriveBadge ordering badgeData dflt gcm w =
        { text := toString items.length, icon := tmpl.icon,
          title := tmpl.formatTitle items.length, color := tmpl.color }) ∧
    ((∀ a ∈ ordering, lookupCategory (gcm w.results) a = none ∨ badgeData a = none) →
      deriveBadge ordering badgeData dflt gcm w = dflt) := by
  constructor
  · intro l1 l l2 items tmpl hord hskip hl hne hb
    simp only [deriveBadge, hw]
    subst hord
    rw [badgeWalk_skip_many badgeData (gcm w.results) hinv l1 (l :: l2) hskip,
      badgeWalk_hit badgeData (gcm w.results) l l2 items tmpl hl hb]
    rfl
  · intro hall
    simp only [deriveBadge, hw]
    rw [badgeWalk_skip_all badgeData (gcm w.results) ordering hall]
    rfl

/-- Concrete category map for the C5 witness:
`{needsAttention: [x, y], readyToSubmit: [z]}`. -/
def demoCats : CategoryMap Nat :=
  [("needsAttention", [10, 11]), ("readyToSubmit", [12])]

/-- Concrete badge template for the `needsAttention` category. -/
def demoNA : BadgeTemplate :=
  { icon := { px24 := "na24", px48 := "na48" }
    color := "blue"
    formatTitle := fun n => toString n ++ " CLs need attention" }

/-- Concrete badge template for the `readyToSubmit` category. -/
def demoRS : BadgeTemplate :=
  { icon := { px24 := "rs24", px48 := "rs48" }
    color := "green"
    formatTitle := fun n => toString n ++ " CLs ready" }

/-- Concrete badge configuration for the C5 witness. -/
def demoBadgeCfg : String → Option BadgeTemplate := fun a =>
  if a = "needsAttention" then some demoNA
  else if a = "readyToSubmit" then some demoRS
  else none

/-- Witness for C5: with priority
`[needsAttention, outgoing, readyToSubmit]` and map
`{needsAttention: [x, y], readyToSubmit: [z]}`, the derived descriptor
reflects `needsAttention` with count 2, never `readyToSubmit`. -/
theorem category_priority_walk_witness :
    deriveBadge ["needsAttention", "outgoing", "readyToSubmit"] demoBadgeCfg
      { text := "", color := "", title := "", icon := ⟨"", ""⟩ }
      (fun _ => demoCats) { results := ([] : List Nat), errors := [] } =
      { text := "2", icon := demoNA.icon, title := demoNA.formatTitle 2,
        color := demoNA.color } := by
  have hinv : ∀ (l : String) (xs : List Nat),
      lookupCategory demoCats l = some xs → xs ≠ [] := by
    intro l xs h
    unfold lookupCategory demoCats at h
    by_cases h1 : "needsAttention" = l
    · simp [List.find?, h1] at h
      simp [← h]
    · by_cases h2 : "readyToSubmit" = l
      · simp [List.find?, h1, h2] at h
        simp [← h]
      · simp [List.find?, h1, h2] at h
  have happ := (category_priority_walk
    ["needsAttention", "outgoing", "readyToSubmit"] demoBadgeCfg
    { text := "", color := "", title := "", icon := ⟨"", ""⟩ }
    (fun _ => demoCats) { results := ([] : List Nat), errors := [] }
    rfl hinv).1 [] "needsAttention" ["outgoing", "readyToSubmit"] [10, 11] demoNA
    rfl (fun a ha => absurd ha (List.not_mem_nil a)) rfl (by simp) rfl
  exact happ

/-! Claim theorems: the scheduler and the on-demand pass. -/

theorem fetchCls_ok (f : Host → FetchOutcome ρ) (ttl now : Int) (cache0 : Cache ρ)
    (hosts : List Host) (hne : ¬ hosts.length = 0) :
    fetchCls f ttl now cache0 hosts =
      { result := .ok
          { results := (runHosts f ttl now
              { results := [], errors := [], cache := cache0, log := [] } hosts).results
            errors := (runHosts f ttl now
              { results := [], errors := [], cache := cache0, log := [] } hosts).errors }
        cache := (runHosts f ttl now
          { results := [], errors := [], cache := cache0, log := [] } hosts).cache
        log := (runHosts f ttl now
          { results := [], errors := [], cache := cache0, log := [] } hosts).log } := by
  unfold fetchCls
  rw [if_neg hne]

/-- Concrete environment used by the scheduler counterexample/witness. -/
def demoEnv : Env Nat Nat :=
  { fetchFn := fun _ => .reviews 7
    ttl := 1000
    refreshDelay := 5
    ordering := []
    badgeData := fun _ => none
    defaultBadge := { text := "", color := "", title := "", icon := ⟨"", ""⟩ }
    getCategoryMap := fun _ => [] }

/-- Concrete initial worker state used by the scheduler
counterexample/witness: empty cache, no alarm armed. -/
def demoState : WorkerState Nat :=
  { cache := fun _ => none, alarm := none, badge := none }

/-- Counterexample to C7 as stated: in the pass triggered by an on-demand
refresh, the first observable action is the network fetch of the
orchestration pass — the alarm cancel/re-arm happens only afterwards,
inside the badge update, not before the pass. -/
theorem refresh_rearm_order_counterexample :
    (fetchAndUpdate demoEnv 0 ["A"] demoState).trace =
      [.fetch "A", .alarmClear, .alarmCreate 5, .badgeUpdate, .notifySent] ∧
    (fetchAndUpdate demoEnv 0 ["A"] demoState).trace.head? ≠ some Event.alarmClear := by
  constructor
  · rfl
  · intro h
    simp [demoEnv, demoState, fetchAndUpdate, fetchCls, runHosts, hostStep, hostFetch,
      update] at h

/-- C7 (amended): an on-demand refresh performs the orchestration fetch
first and then — still before the badge render and the notification
dispatch — cancels any armed trigger and arms a new one with the fixed
delay; the call resolves, leaves exactly one trigger armed
(`alarm = some delay`), and an immediately repeated call leaves exactly
one trigger armed again. -/
theorem refresh_pass_then_rearm (env : Env ρ ι) (now : Int) (hosts : List Host)
    (st : WorkerState ρ) (hne : ¬ hosts.length = 0) :
    (∃ comb, (fetchAndUpdate env now hosts st).outcome = .ok comb) ∧
    (fetchAndUpdate env now hosts st).trace =
      (fetchCls env.fetchFn env.ttl now st.cache hosts).log.map Event.fetch ++
        [.alarmClear, .alarmCreate env.refreshDelay, .badgeUpdate, .notifySent] ∧
    (fetchAndUpdate env now hosts st).state.alarm = some env.refreshDelay ∧
    (fetchAndUpdate env now hosts (fetchAndUpdate env now hosts st).state).state.alarm =
      some env.refreshDelay := by
  simp [fetchAndUpdate, fetchCls_ok _ _ _ _ _ hne, update]

/-- Witness for the amended C7 at a concrete input. -/
theorem refresh_pass_then_rearm_witness :
    (fetchAndUpdate demoEnv 0 ["A"] demoState).state.alarm = some 5 ∧
    (fetchAndUpdate demoEnv 0 ["A"]
        (fetchAndUpdate demoEnv 0 ["A"] demoState).state).state.alarm = some 5 := by
  have happ := refresh_pass_then_rearm demoEnv 0 ["A"] demoState (by simp)
  exact ⟨happ.2.2.1, happ.2.2.2⟩

/-- C10: when the periodic trigger fires with an empty configured host
list, the handler performs no orchestration pass, raises and logs no
configuration error, emits no events (in particular it arms no new
trigger), and leaves the worker state unchanged. -/
theorem alarm_fire_empty_hosts_noop (env : Env ρ ι) (now : Int) (st : WorkerState ρ) :
    handleAlarmEvent env now [] "auto-refresh" st = (st, [], none) ∧
    onAlarm env now [] st = (st, [], none) :=
  ⟨rfl, rfl⟩

/-! Claim theorems: the request bridge. -/

mutual

theorem jsonRound_plain : ∀ v : JsVal, plainData v = true → jsonRound v = some v
  | .nul, _ => rfl
  | .boolean _, _ => rfl
  | .num _, _ => rfl
  | .str _, _ => rfl
  | .undef, h => Bool.noConfusion h
  | .func, h => Bool.noConfusion h
  | .arr xs, h => by
      rw [jsonRound, jsonRoundArr_plain xs (by simpa [plainData] using h)]
  | .obj fs, h => by
      rw [jsonRound, jsonRoundFields_plain fs (by simpa [plainData] using h)]

theorem jsonRoundArr_plain : ∀ xs : List JsVal, plainDataArr xs = true → jsonRoundArr xs = xs
  | [], _ => rfl
  | x :: xs, h => by
      have h2 : plainData x = true ∧ plainDataArr xs = true := by
        simpa [plainDataArr, Bool.and_eq_true] using h
      rw [jsonRoundArr, jsonRound_plain x h2.1, jsonRoundArr_plain xs h2.2]
      rfl

theorem jsonRoundFields_plain :
    ∀ fs : List (String × JsVal), plainDataFields fs = true → jsonRoundFields fs = fs
  | [], _ => rfl
  | (k, v) :: fs, h => by
      have h2 : plainData v = true ∧ plainDataFields fs = true := by
        simpa [plainDataFields, Bool.and_eq_true] using h
      rw [jsonRoundFields, jsonRound_plain v h2.1, jsonRoundFields_plain fs h2.2]

end

/-- Counterexample to C8 as stated: a request whose command matches no
operation on the handler makes the listener throw a raw synchronous
`TypeError` (looking up `.apply` on `undefined`); no response — in
particular no `{error: message}` — is ever delivered to the caller. -/
theorem unknown_command_counterexample :
    messageProxy (fun _ => none) "getSearchResults" [] = .rawTypeErrorThrown ∧
    ¬ ∃ r, messageProxy (fun _ => none) "getSearchResults" [] = .replied r := by
  constructor
  · rfl
  · rintro ⟨r, h⟩
    simp [messageProxy] at h

/-- C8 (amended): a request whose command matches no asynchronous
operation on the handler makes the bridge throw a raw synchronous type
error that escapes unconverted, with no response delivered; for a
matching command, every rejection of the operation is converted into a
message string and delivered as `{error: message}`. -/
theorem bridge_unknown_command_and_rejections (handler : Handler) (command : String)
    (args : List JsVal) :
    (handler command = none →
      messageProxy handler command args = .rawTypeErrorThrown) ∧
    (∀ (op : Operation) (e : Rejection), handler command = some op →
      op args = .error e →
      messageProxy handler command args = .replied (.error (renderRejection e))) := by
  constructor
  · intro h
    simp only [messageProxy, h]
  · intro op e h1 h2
    simp only [messageProxy, h1, h2]

/-- Concrete handler surface for the bridge witnesses: one operation
resolving to plain data, one rejecting with message `"boom"`. -/
def demoHandler : Handler := fun command =>
  if command = "getValue" then
    some (fun _ => .ok (.obj [("a", .num 1), ("b", .arr [.num 2, .num 3])]))
  else if command = "reject" then
    some (fun _ => .error { message := "boom" })
  else none

/-- Witness for the amended C8: the rejection with message `"boom"` is
delivered as `{error: String(error)}`. -/
theorem bridge_unknown_command_and_rejections_witness :
    messageProxy demoHandler "reject" [] =
      .replied (.error (renderRejection { message := "boom" })) :=
  (bridge_unknown_command_and_rejections demoHandler "reject" []).2
    (fun _ => .error { message := "boom" }) { message := "boom" } rfl rfl

/-- C9: on resolution the bridge replies `{value: <canonical>}` where the
canonical value is the `JSON.parse(JSON.stringify(…))` round trip — which
preserves plain data (nested records, ordered lists, strings, numbers,
booleans, null) verbatim and silently drops object fields holding
non-data values — and on rejection it replies `{error: <message>}` with
the failure rendered to a message string. -/
theorem bridge_canonical_round_trip (handler : Handler) (command : String)
    (args : List JsVal) (op : Operation) (hop : handler command = some op) :
    (∀ v c, op args = .ok v → jsonRound v = some c →
      messageProxy handler command args = .replied (.value c)) ∧
    (∀ v, plainData v = true → jsonRound v = some v) ∧
    (∀ (k : String) (fs : List (String × JsVal)),
      jsonRound (.obj ((k, .func) :: fs)) = jsonRound (.obj fs) ∧
      jsonRound (.obj ((k, .undef) :: fs)) = jsonRound (.obj fs)) ∧
    (∀ e, op args = .error e →
      messageProxy handler command args = .replied (.error (renderRejection e))) := by
  refine ⟨?_, jsonRound_plain, ?_, ?_⟩
  · intro v c h1 h2
    simp only [messageProxy, hop, h1, h2]
  · intro k fs
    exact ⟨rfl, rfl⟩
  · intro e h
    simp only [messageProxy, hop, h]

/-- Witness for C9: a handler operation resolving to `{a: 1, b: [2, 3]}`
yields `{value: {a: 1, b: [2, 3]}}` unchanged through the round trip. -/
theorem bridge_canonical_round_trip_witness :
    messageProxy demoHandler "getValue" [] =
      .replied (.value (.obj [("a", .num 1), ("b", .arr [.num 2, .num 3])])) :=
  (bridge_canonical_round_trip demoHandler "getValue" []
    (fun _ => .ok (.obj [("a", .num 1), ("b", .arr [.num 2, .num 3])])) rfl).1
    (.obj [("a", .num 1), ("b", .arr [.num 2, .num 3])])
    (.obj [("a", .num 1), ("b", .arr [.num 2, .num 3])]) rfl rfl

end GerritMonitor
